import Mathlib

/-!
Verification of the meeting-monitor live session orchestrator.

This file shallowly embeds the parts of the repository that the verified
properties are about:

* the pure chunk-filter predicates `is_hallucination` / `is_silent_audio`
  (`app/modules/workflow/live_session.py`, inside `_handle_audio_chunk`);
* the transcript ingestion paths `transcribe_in_background` (local capture)
  and `process_audio_in_background` (remote `/audio-stream` WebSocket,
  `app/modules/api/endpoints.py`);
* the session state machine `LiveAssistantSession.start/stop`, the module
  level registry `start_new_session` / `stop_current_session` /
  `force_reset_session`, and the finalization pipeline `_finalize_lead`;
* one iteration of the insight scheduler `_insight_loop`;
* the WebSocket fan-out `_broadcast`;
* the speaker-grouped transcript formatter
  `TranscriptionService.format_transcript_with_speakers`.

Python strings are modelled as lists of characters (`Str`), machine reals
as rationals, and every fallible external collaborator (Whisper, GLiNER,
Gemini, web insight, Odoo, the database) as an explicit `Except`-valued
oracle handed to the operation that calls it, so that "the collaborator
raised" is a value rather than an effect.
-/

/-- Text is modelled as a list of characters (a Python `str`). -/
abbrev Str := List Char

/-- The characters for which Python `str.isspace()` is true; these are
exactly the characters removed at the ends by `str.strip()`. -/
def is_py_space (c : Char) : Bool :=
  let n := c.toNat
  n == 0x09 || n == 0x0a || n == 0x0b || n == 0x0c || n == 0x0d ||
  n == 0x1c || n == 0x1d || n == 0x1e || n == 0x1f || n == 0x20 ||
  n == 0x85 || n == 0xa0 || n == 0x1680 ||
  (0x2000 ≤ n && n ≤ 0x200a) ||
  n == 0x2028 || n == 0x2029 || n == 0x202f || n == 0x205f || n == 0x3000

/-- Python `str.strip()`: drop whitespace from both ends. -/
def py_strip (s : Str) : Str :=
  ((s.dropWhile is_py_space).reverse.dropWhile is_py_space).reverse

/-- Python `str.lower()` (ASCII letters; the denylist phrases it is compared
against are all ASCII). -/
def py_lower (s : Str) : Str :=
  s.map Char.toLower

/-- Whether `hay` starts with `needle`. -/
def py_starts (needle hay : Str) : Bool :=
  match needle, hay with
  | [], _ => true
  | _ :: _, [] => false
  | n :: ns, h :: hs => n == h && py_starts ns hs

/-- Python `needle in hay` substring containment. -/
def py_contains (needle : Str) : Str → Bool
  | [] => py_starts needle []
  | c :: rest => py_starts needle (c :: rest) || py_contains needle rest

/-- Python `s.split(c)` for a single separator character. -/
def split_on_char (c : Char) (s : Str) : List Str :=
  s.splitOn c

/-- The fixed denylist of stock filler phrases checked by
`is_hallucination` (live_session.py, `hallucination_phrases`). -/
def hallucination_phrases : List Str :=
  [ "thank you for watching".data, "thanks for watching".data,
    "please subscribe".data, "like and subscribe".data,
    "see you next time".data, "[music]".data, "(music)".data,
    "subtitle by".data, "copyright".data, "all rights reserved".data ]

/-- Python `re.match(r'^(.)\1\x7b4,\x7d$', s)`: the dot matches any character
except a newline, the backreference repeats that character at least four more
times, and `$` also matches just before a single trailing newline. -/
def re_match_repeated (s : Str) : Bool :=
  let t := if s.getLast? == some '\n' then s.dropLast else s
  match t with
  | [] => false
  | c :: rest => c != '\n' && decide (4 ≤ rest.length) && rest.all (· == c)

/-- `is_hallucination` from `_handle_audio_chunk` (live_session.py):
detects Whisper hallucinations on silent audio. -/
def is_hallucination (text : Str) : Bool :=
  let t := py_strip text
  if t.isEmpty then true
  else if decide (t.length < 2) then true
  else if re_match_repeated t then true
  else if hallucination_phrases.any (fun p => py_contains p (py_lower t)) then true
  else false

/-- `is_silent_audio` from `_handle_audio_chunk` (live_session.py):
`rms = sqrt(mean(data ** 2)); rms < 0.01`.  Since both sides of the
comparison are nonnegative, `rms < 0.01` holds iff the mean square is below
`1/10000`, which is how the comparison is phrased here to stay executable;
numpy's mean of an empty array is NaN and `NaN < 0.01` is false, hence the
empty case. -/
def is_silent_audio (data : List ℚ) : Bool :=
  if data.isEmpty then false
  else decide ((data.map fun x => x * x).sum / (data.length : ℚ) < 1 / 10000)

/-- A transcript segment as produced by the transcription collaborator and
stored in `transcript_segments`: the Python dict
`{speaker, text, start, end}` (`endTime` models the key `end`). -/
structure Segment where
  speaker : Str
  text : Str
  start : ℚ
  endTime : ℚ
deriving DecidableEq

/-- An extracted entity as returned by `GLiNERService.extract`:
`{text, label, score}`. -/
structure Entity where
  text : Str
  label : Str
  score : ℚ
deriving DecidableEq

/-- The `{"text": ..., "label": ...}` dicts the insight loop stores in
`state.detected_entities`. -/
structure EntityRef where
  text : Str
  label : Str
deriving DecidableEq

/-- A competitive battlecard as built by the Gemini collaborator and
enriched with web research: `{competitor, counter_points, quick_response,
web_research}`. -/
structure Battlecard where
  competitor : Str
  counter_points : List Str
  quick_response : Str
  web_findings : List Str
  web_verdict : Str
deriving DecidableEq

/-- `SessionStatus` (live_session.py). -/
inductive SessionStatus where
  | idle | starting | running | processing | completed | error
deriving DecidableEq

/-- `SessionConfig` (live_session.py). -/
structure SessionConfig where
  insight_interval : ℚ := 30
  transcript_chunk_interval : ℚ := 10
  screen_interval : ℚ := 2
  capture_mode : Str := "local".data
  enable_vision : Bool := true
  enable_transcription : Bool := true
  enable_final_sync : Bool := true
  enable_face_sentiment : Bool := true
deriving DecidableEq

/-- `SessionState` (live_session.py). -/
structure SessionState where
  status : SessionStatus := .idle
  start_time : Option ℚ := none
  session_id : Option Nat := none
  transcript_segments : List Segment := []
  quick_hints : List Str := []
  detected_entities : List EntityRef := []
  starred_hints : List Str := []
  battlecards : List Battlecard := []
  screenshots_processed : Nat := 0
  audio_chunks_processed : Nat := 0
  gemini_calls : Nat := 0
deriving DecidableEq

/-- The state of a freshly constructed `LiveAssistantSession`. -/
def initial_session_state : SessionState := {}

/-- `SessionState.full_transcript`: plain text transcript,
`" ".join(segment texts)`. -/
def full_transcript (st : SessionState) : Str :=
  List.intercalate [' '] (st.transcript_segments.map (·.text))

/-- `SessionState.duration`: seconds since `start_time`, `0.0` when the
session never started.  `now` stands for `time.time()`. -/
def session_duration (now : ℚ) (st : SessionState) : ℚ :=
  match st.start_time with
  | some t => now - t
  | none => 0

/-- The line `f"[\x7bcurrent_speaker\x7d]: \x7b' '.join(current_text)\x7d"`
flushed by the transcript formatter; Python renders `None` as `"None"`. -/
def mk_line (cur : Option Str) (buf : List Str) : Str :=
  '[' :: ((match cur with | some s => s | none => "None".data) ++
    (']' :: ':' :: ' ' :: List.intercalate [' '] buf))

/-- The grouping loop shared by `SessionState.formatted_transcript`
(live_session.py) and `TranscriptionService.format_transcript_with_speakers`
(backup transcription service): segments of one speaker run are joined into
a single `[SPEAKER]: ...` line; empty (stripped) texts extend no run. -/
def fmt_loop : List Segment → Option Str → List Str → List Str → List Str
  | [], cur, buf, lines => lines ++ (if buf.isEmpty then [] else [mk_line cur buf])
  | seg :: rest, cur, buf, lines =>
    let sp := seg.speaker
    let tx := py_strip seg.text
    if some sp ≠ cur then
      fmt_loop rest (some sp) (if tx.isEmpty then [] else [tx])
        (lines ++ (if buf.isEmpty then [] else [mk_line cur buf]))
    else
      fmt_loop rest cur (if tx.isEmpty then buf else buf ++ [tx]) lines

/-- `TranscriptionService.format_transcript_with_speakers`: format diarized
segments into a readable transcript, one line per speaker run. -/
def format_transcript_with_speakers (segs : List Segment) : Str :=
  if segs.isEmpty then [] else List.intercalate ['\n'] (fmt_loop segs none [] [])

/-- Modelled from the spec: the source formats transcripts but contains no
inverse; per the round-trip property, speaker boundaries are re-parsed from
the `[SPEAKER]: ` line prefixes.  A line yields a speaker when it starts
with `[` and the bracket is closed by `]: `. -/
def parse_line (l : Str) : Option Str :=
  match l with
  | [] => none
  | c :: rest =>
    if c = '[' then
      match rest.drop (rest.takeWhile (· != ']')).length with
      | d1 :: d2 :: d3 :: _ =>
        if d1 = ']' ∧ d2 = ':' ∧ d3 = ' ' then
          some (rest.takeWhile (· != ']'))
        else none
      | _ => none
    else none

/-- Modelled from the spec: recover the speaker sequence of a formatted
transcript from its line prefixes. -/
def parse_speakers (s : Str) : List Str :=
  (split_on_char '\n' s).filterMap parse_line

/-- Adjacent-duplicate collapse, continuing a run labelled `cur`. -/
def dedup_adj_from (cur : Str) : List Str → List Str
  | [] => []
  | x :: xs => if x = cur then dedup_adj_from cur xs else x :: dedup_adj_from x xs

/-- Collapse adjacent duplicates: the sequence of speaker runs. -/
def dedup_adj : List Str → List Str
  | [] => []
  | x :: xs => x :: dedup_adj_from x xs

/-- The outcomes of the two transcription collaborator calls available to
`transcribe_in_background`: `transcribe_with_speakers` returns a (possibly
empty) segment list — it catches its own errors and returns `[]` — and the
plain `transcribe` fallback returns a (possibly empty) string. -/
structure TranscribeOracle where
  diarized : List Segment
  plain : Str

/-- How many times each transcription collaborator was invoked. -/
structure TranscriptionCalls where
  with_speakers : Nat
  plain : Nat
deriving DecidableEq

/-- `transcribe_in_background` (inside `_handle_audio_chunk`,
live_session.py): skip silent chunks, transcribe with diarization, fall
back to plain transcription when diarization is empty, drop hallucinated
or empty segments, and append the survivors. -/
def transcribe_in_background (o : TranscribeOracle) (chunkData : List ℚ)
    (st : SessionState) : SessionState × TranscriptionCalls :=
  if is_silent_audio chunkData then (st, ⟨0, 0⟩)
  else
    let segments :=
      if o.diarized.isEmpty then
        (if (py_strip o.plain).isEmpty then []
         else [{ speaker := "SPEAKER_00".data, text := py_strip o.plain,
                 start := 0, endTime := 0 }])
      else o.diarized
    let plain_calls : Nat := if o.diarized.isEmpty then 1 else 0
    let valid := segments.filter fun s =>
      !(py_strip s.text).isEmpty && !is_hallucination (py_strip s.text)
    if valid.isEmpty then (st, ⟨1, plain_calls⟩)
    else
      ({ st with transcript_segments := st.transcript_segments ++ valid,
                 audio_chunks_processed := st.audio_chunks_processed + 1 },
       ⟨1, plain_calls⟩)

/-- `_handle_audio_chunk` (live_session.py): ignore chunks when
transcription is disabled, otherwise hand the chunk to
`transcribe_in_background`. -/
def handle_audio_chunk (cfg : SessionConfig) (o : TranscribeOracle)
    (chunkData : List ℚ) (st : SessionState) : SessionState × TranscriptionCalls :=
  if !cfg.enable_transcription then (st, ⟨0, 0⟩)
  else transcribe_in_background o chunkData st

/-- `process_audio_in_background` (endpoints.py, `/audio-stream`): extend
`transcript_segments` with whatever `transcribe_with_speakers` returned —
no silence or hallucination filtering on this path. -/
def process_audio_in_background (segs : List Segment) (st : SessionState) :
    SessionState :=
  if segs.isEmpty then st
  else
    { st with transcript_segments := st.transcript_segments ++ segs,
              audio_chunks_processed := st.audio_chunks_processed + 1 }

/-- Outcomes of the collaborators used by `_finalize_lead`:
`SummarizationService.summarize`, `GLiNERService.extract` and
`OdooClient.create_lead`; `.error` means the call raised. -/
structure FinalizeOracle where
  summarize : Except Str Str
  extract : Except Str (List Entity)
  create_lead : Except Str Nat

/-- Which finalization collaborators were invoked. -/
structure FinalizeCalls where
  summarize : Bool
  extract : Bool
  create_lead : Bool
deriving DecidableEq

/-- No finalization collaborator invoked. -/
def no_finalize_calls : FinalizeCalls := ⟨false, false, false⟩

instance {ε α : Type} [DecidableEq ε] [DecidableEq α] :
    DecidableEq (Except ε α) := fun a b =>
  match a, b with
  | .error x, .error y =>
    if h : x = y then .isTrue (h ▸ rfl)
    else .isFalse (fun hc => h (Except.error.inj hc))
  | .ok x, .ok y =>
    if h : x = y then .isTrue (h ▸ rfl)
    else .isFalse (fun hc => h (Except.ok.inj hc))
  | .error _, .ok _ => .isFalse (fun hc => Except.noConfusion hc)
  | .ok _, .error _ => .isFalse (fun hc => Except.noConfusion hc)

/-- The lead-candidate fields picked from the extracted entities. -/
structure LeadFields where
  name : Str
  email : Option Str
  phone : Option Str
  company : Option Str
deriving DecidableEq

/-- The entity scan of `_finalize_lead` building the lead candidate: first
person (while the name is still the default), first email, first phone
number, first organization, each entity filling at most one slot. -/
def pick_lead_fields (entities : List Entity) : LeadFields :=
  entities.foldl
    (fun acc e =>
      if e.label = "person".data ∧ acc.name = "Meeting Lead".data then
        { acc with name := e.text }
      else if e.label = "email".data ∧ acc.email = none then
        { acc with email := some e.text }
      else if e.label = "phone number".data ∧ acc.phone = none then
        { acc with phone := some e.text }
      else if e.label = "organization".data ∧ acc.company = none then
        { acc with company := some e.text }
      else acc)
    ⟨"Meeting Lead".data, none, none, none⟩

/-- The dict returned by `_finalize_lead`: either the early
`{"error": "No transcript to process"}` or the lead-creation result
(`lead_id` is `None` exactly when the Odoo sync failed, that failure being
swallowed inside `_finalize_lead`). -/
inductive FinalizeOut where
  | no_transcript
  | lead (lead_id : Option Nat) (lead_name : Str) (summary : Str)
      (entities_count : Nat)
deriving DecidableEq

/-- `LiveAssistantSession._finalize_lead` (live_session.py): summarize,
extract entities, build the lead candidate and hand it to Odoo.  A raise
from the summarizer or the extractor propagates (`.error`); an Odoo
failure is caught inside and only nulls `lead_id`.  (The `meeting_json`
payload assembled alongside is plain data repackaging and is represented
here by the summary, lead name and entity count it carries.) -/
def finalize_lead (o : FinalizeOracle) (st : SessionState) :
    Except Str FinalizeOut × FinalizeCalls :=
  if (full_transcript st).isEmpty then (.ok .no_transcript, no_finalize_calls)
  else
    match o.summarize with
    | .error e => (.error e, ⟨true, false, false⟩)
    | .ok summary =>
      match o.extract with
      | .error e => (.error e, ⟨true, true, false⟩)
      | .ok entities =>
        let lf := pick_lead_fields entities
        let lead_id := match o.create_lead with
          | .ok i => some i
          | .error _ => none
        (.ok (.lead lead_id lf.name summary entities.length), ⟨true, true, true⟩)

/-- The dict returned by `LiveAssistantSession.stop`: either the no-op
`{"error": "Session not running"}` or the final result whose `lead` key is
present exactly when finalization ran (`.error` inside it is the caught
finalization failure `{"error": str(e)}`). -/
inductive StopResult where
  | not_running
  | finished (duration : ℚ) (transcript : Str) (entities : List EntityRef)
      (screenshots_processed : Nat) (audio_chunks_processed : Nat)
      (gemini_calls : Nat) (lead : Option (Except Str FinalizeOut))
deriving DecidableEq

/-- `LiveAssistantSession.stop` (live_session.py).  Returns the state after
the call, the result dict, the list of status transitions performed by
`_set_status` (as `(from, to)` pairs), and which finalization collaborators
ran.  The face-sentiment/insight-task cancellation and the bounded-wait
capture teardown touch no session state and set no status. -/
def session_stop (o : FinalizeOracle) (cfg : SessionConfig) (now : ℚ)
    (st : SessionState) :
    SessionState × StopResult × List (SessionStatus × SessionStatus) × FinalizeCalls :=
  if st.status ≠ .running ∧ st.status ≠ .starting then
    (st, .not_running, [], no_finalize_calls)
  else
    let fin :=
      if cfg.enable_final_sync && !(full_transcript st).isEmpty then
        some (finalize_lead o st)
      else none
    let result := StopResult.finished (session_duration now st)
      (full_transcript st) st.detected_entities st.screenshots_processed
      st.audio_chunks_processed st.gemini_calls (fin.map Prod.fst)
    ({ st with status := .completed }, result,
     [(st.status, .processing), (.processing, .completed)],
     (fin.map Prod.snd).getD no_finalize_calls)

/-- `LiveAssistantSession.start` (live_session.py): no-op when already
RUNNING, else STARTING, then RUNNING on success or ERROR (re-raised, the
final `Bool`) when wiring the capture service or the loops throws. -/
def session_start (startup_fails : Bool) (now : ℚ) (st : SessionState) :
    SessionState × List (SessionStatus × SessionStatus) × Bool :=
  if st.status = .running then (st, [], false)
  else
    let st1 := { st with status := SessionStatus.starting, start_time := some now }
    if startup_fails then
      ({ st1 with status := .error }, [(st.status, .starting), (.starting, .error)], true)
    else
      ({ st1 with status := .running }, [(st.status, .starting), (.starting, .running)], false)

/-- A `LiveAssistantSession` as held by the module-level registry: its
immutable config and its mutable state. -/
structure Sess where
  config : SessionConfig
  state : SessionState
deriving DecidableEq

/-- The module-level `_active_session` global. -/
abbrev Registry := Option Sess

/-- The status reported by the `/session-status` endpoint: `"idle"` when no
session is registered, otherwise the session's own status. -/
def observed_status (r : Registry) : SessionStatus :=
  match r with
  | none => .idle
  | some s => s.state.status

/-- Inputs to `start_new_session`: the new config, the clock, whether the
new session's startup throws, and the collaborator outcomes used if a
previous RUNNING session has to be stopped first. -/
structure StartOracle where
  config : SessionConfig
  now : ℚ
  startup_fails : Bool
  prev_finalize : FinalizeOracle

/-- `start_new_session` (live_session.py): best-effort-stop a previous
RUNNING session (errors swallowed), clear the reference, then create a
fresh session and start it; a startup failure leaves the new ERROR session
registered and re-raises (the final `Bool`). -/
def start_new_session (o : StartOracle) (r : Registry) :
    Registry × List (SessionStatus × SessionStatus) × Bool :=
  let stop_trace :=
    match r with
    | some s =>
      if s.state.status = .running then
        (session_stop o.prev_finalize s.config o.now s.state).2.2.1
      else []
    | none => []
  (some ⟨o.config, (session_start o.startup_fails o.now initial_session_state).1⟩,
   stop_trace ++ (session_start o.startup_fails o.now initial_session_state).2.1,
   (session_start o.startup_fails o.now initial_session_state).2.2)

/-- The value returned by `stop_current_session` when a session was
registered: the stop result, or the `{"status": "not_running"}` dict. -/
inductive StopApiResult where
  | result (r : StopResult)
  | not_running_dict
deriving DecidableEq

/-- `stop_current_session` (live_session.py): `None` when no session is
registered; otherwise the reference is cleared immediately and the session
is stopped only if RUNNING/STARTING, else the not-running dict is
returned. -/
def stop_current_session (o : FinalizeOracle) (now : ℚ) (r : Registry) :
    Registry × Option StopApiResult × List (SessionStatus × SessionStatus) × FinalizeCalls :=
  match r with
  | none => (none, none, [], no_finalize_calls)
  | some s =>
    if s.state.status = .running ∨ s.state.status = .starting then
      (none, some (.result (session_stop o s.config now s.state).2.1),
       (session_stop o s.config now s.state).2.2.1,
       (session_stop o s.config now s.state).2.2.2)
    else
      (none, some .not_running_dict, [], no_finalize_calls)

/-- `force_reset_session` (live_session.py): flag the capture service
stopped and drop the global reference; no session status is set and
nothing is awaited. -/
def force_reset_session (_r : Registry) :
    Registry × List (SessionStatus × SessionStatus) :=
  (none, [])

/-- The JSON response of the `/stop-session` endpoint (endpoints.py). -/
inductive StopEndpointResponse where
  | not_running_response
  | completed_response (result : StopApiResult)
deriving DecidableEq

/-- The `/stop-session` endpoint (endpoints.py): map `None` from
`stop_current_session` to the not-running response; otherwise persist to
the database and answer `{"status": "completed", "result": ...}`.  Every
database/sentiment/CRM error in the persistence block is caught and only
logged, so the response does not depend on the persistence outcome
(`_persist`). -/
def stop_session_endpoint (res : Option StopApiResult)
    (_persist : Except Str Unit) : StopEndpointResponse :=
  match res with
  | none => .not_running_response
  | some r => .completed_response r

/-- Python `list(set(l))` modelled with first-occurrence order (the claims
proved about it do not depend on the iteration order of the set). -/
def py_set_list (l : List Str) : List Str :=
  l.foldl (fun acc x => if x ∈ acc then acc else acc ++ [x]) []

/-- `known_competitors` (gliner_service.py, `detect_competitors`). -/
def known_competitors : List Str :=
  [ "aws".data, "amazon".data, "salesforce".data, "datadog".data,
    "microsoft".data, "hubspot".data, "slack".data, "google".data,
    "oracle".data, "sap".data, "zendesk".data, "freshworks".data,
    "zoho".data, "monday".data, "asana".data, "jira".data, "atlassian".data ]

/-- `GLiNERService.detect_competitors`: for organization/product/service
entities, report the entity text when its lowercase form contains, or is
contained in, a known competitor name. -/
def detect_competitors (entities : List Entity) : List Str :=
  entities.filterMap fun e =>
    if e.label = "organization".data ∨ e.label = "product".data ∨
        e.label = "service".data then
      let nl := py_lower e.text
      if known_competitors.any (fun c => py_contains c nl || py_contains nl c) then
        some e.text
      else none
    else none

/-- Collaborator outcomes for one tick of `_insight_loop`:
`GLiNERService.extract`, `gemini.generate_sales_hints` (quick hints and
research topics), `gemini.get_battlecard` per target, and the web-insight
enrichment stream per target collapsed to `(negative_findings, verdict)`. -/
structure TickOracle where
  extract : Except Str (List Entity)
  hints : Except Str (List Str × List Str)
  battlecard : Str → Except Str Battlecard
  web_insights : Str → Except Str (List Str × Str)

/-- The per-target body of the battlecard loop in `_insight_loop`: skip
targets already covered by a battlecard; otherwise call the battlecard
collaborator (counted), degrade enrichment failure to empty web research,
and append the card.  A battlecard-collaborator raise is caught per
target and appends nothing. -/
def insight_tick_target (o : TickOracle) (acc : SessionState × Nat)
    (target : Str) : SessionState × Nat :=
  let (s, n) := acc
  if target ∈ s.battlecards.map (·.competitor) then (s, n)
  else
    match o.battlecard target with
    | .error _ => (s, n + 1)
    | .ok card =>
      let card' :=
        match o.web_insights target with
        | .ok (findings, verdict) =>
          { card with web_findings := findings, web_verdict := verdict }
        | .error _ => { card with web_findings := [], web_verdict := [] }
      ({ s with battlecards := s.battlecards ++ [card'] }, n + 1)

/-- One iteration of `LiveAssistantSession._insight_loop`
(live_session.py), after the inter-tick sleep: skip short transcripts,
extract entities, generate hints, update the session state, then merge
detected competitors with the research topics, cap the merged set to two
targets, and run the battlecard loop.  A raise from the extractor or the
hint generator is caught by the loop's outer handler and the tick changes
nothing.  Returns the new state and how many targets invoked the
battlecard collaborator. -/
def insight_tick (o : TickOracle) (st : SessionState) : SessionState × Nat :=
  let transcript := full_transcript st
  if transcript.isEmpty || decide (transcript.length < 20) then (st, 0)
  else
    match o.extract with
    | .error _ => (st, 0)
    | .ok entities =>
      match o.hints with
      | .error _ => (st, 0)
      | .ok (qh, research_topics) =>
        let st1 : SessionState :=
          { st with
            quick_hints := qh
            detected_entities := entities.map (fun e => ⟨e.text, e.label⟩)
            gemini_calls := st.gemini_calls + 1 }
        let targets :=
          (py_set_list (detect_competitors entities ++ research_topics)).take 2
        targets.foldl (insight_tick_target o) (st1, 0)

/-- The save-to-session step of the `/battlecard` endpoint (endpoints.py):
append the freshly generated battlecard to the active session's list,
without any deduplication check. -/
def get_battlecard_save (card : Battlecard) (st : SessionState) : SessionState :=
  { st with battlecards := st.battlecards ++ [card] }

/-- `_broadcast` (endpoints.py): no-op on an empty subscriber set;
otherwise attempt a send to every current subscriber, collect the
subscribers whose send failed, and discard exactly those.  Subscriber
handles are modelled as naturals and a send outcome as `send_ok`.
Returns (remaining subscribers, subscribers that received the event). -/
def broadcast_publish (subs : List Nat) (send_ok : Nat → Bool) :
    List Nat × List Nat :=
  if subs.isEmpty then (subs, [])
  else
    let delivered := subs.filter send_ok
    let disconnected := subs.filter fun w => !send_ok w
    (disconnected.foldl (fun s w => s.erase w) subs, delivered)

/-! ### Concrete states and oracles used by witnesses -/

/-- A sample non-hallucinated transcript segment. -/
def sample_segment : Segment :=
  { speaker := "SPEAKER_00".data, text := "Hello there from the meeting".data,
    start := 0, endTime := 5 }

/-- A RUNNING session holding one transcript segment. -/
def running_state : SessionState :=
  { status := .running, start_time := some 10,
    transcript_segments := [sample_segment] }

/-- Finalization collaborators that all succeed. -/
def ok_finalize_oracle : FinalizeOracle :=
  { summarize := .ok "Summary".data, extract := .ok [], create_lead := .ok 7 }

/-- Finalization collaborators where the summarizer raises. -/
def failing_summarize_oracle : FinalizeOracle :=
  { summarize := .error "summarizer crashed".data, extract := .ok [],
    create_lead := .ok 7 }

/-- A segment whose text is a denylisted hallucination phrase. -/
def bad_segment : Segment :=
  { speaker := "SPEAKER_00".data, text := "thank you for watching".data,
    start := 0, endTime := 0 }

/-- An example stop result whose finalization fully succeeded. -/
def example_stop_result : StopResult :=
  .finished 5 "Hello there from the meeting".data [] 0 1 0
    (some (.ok (.lead (some 7) "Meeting Lead".data "Summary".data 0)))

/-- A battlecard for the competitor `"AWS"`. -/
def aws_card : Battlecard :=
  { competitor := "AWS".data, counter_points := [], quick_response := [],
    web_findings := [], web_verdict := [] }

/-- An insight-tick oracle detecting the competitor `"AWS"`. -/
def demo_tick_oracle : TickOracle :=
  { extract := .ok [⟨"AWS".data, "organization".data, 1⟩],
    hints := .ok ([], ["AWS".data]),
    battlecard := fun t => .ok ⟨t, [], [], [], []⟩,
    web_insights := fun _ => .error "offline".data }

/-- The allowed status graph (spec §4.5): the chain
`IDLE → STARTING → RUNNING → PROCESSING → COMPLETED`, `ERROR` reachable
from STARTING/RUNNING on a startup/capture fault, and `stop()` entering
PROCESSING from RUNNING or STARTING (the spec's
"`stop()`: RUNNING/STARTING → PROCESSING"). -/
def allowed_transition : SessionStatus → SessionStatus → Bool
  | .idle, .starting => true
  | .starting, .running => true
  | .starting, .error => true
  | .starting, .processing => true
  | .running, .error => true
  | .running, .processing => true
  | .processing, .completed => true
  | _, _ => false

/-- One invocation of the module-level session API. -/
inductive ApiOp where
  | start_op (o : StartOracle)
  | stop_op (o : FinalizeOracle) (now : ℚ)
  | reset_op

/-- Apply one API operation to the registry, collecting the status
transitions it performs. -/
def apply_op : ApiOp → Registry → Registry × List (SessionStatus × SessionStatus)
  | .start_op o, r => ((start_new_session o r).1, (start_new_session o r).2.1)
  | .stop_op o now, r =>
    ((stop_current_session o now r).1, (stop_current_session o now r).2.2.1)
  | .reset_op, r => force_reset_session r

/-- Run a sequence of API operations, concatenating all status
transitions. -/
def run_ops : List ApiOp → Registry → Registry × List (SessionStatus × SessionStatus)
  | [], r => (r, [])
  | op :: ops, r =>
    ((run_ops ops (apply_op op r).1).1,
     (apply_op op r).2 ++ (run_ops ops (apply_op op r).1).2)

/-- The oracle inputs of a successful `start_new_session`. -/
def demo_start_oracle : StartOracle :=
  { config := {}, now := 0, startup_fails := false,
    prev_finalize := ok_finalize_oracle }

/-- Segments on which the formatter round-trip is well-posed: non-blank
text, no newline inside text, and a speaker label without `]` or newline
(otherwise the `[SPEAKER]: ` line prefix itself is ambiguous). -/
def good_seg (s : Segment) : Prop :=
  py_strip s.text ≠ [] ∧ ']' ∉ s.speaker ∧ '\n' ∉ s.speaker ∧ '\n' ∉ s.text

instance (s : Segment) : Decidable (good_seg s) :=
  decidable_of_iff
    (py_strip s.text ≠ [] ∧ ']' ∉ s.speaker ∧ '\n' ∉ s.speaker ∧ '\n' ∉ s.text)
    Iff.rfl

/-- Two consecutive segments by the same speaker. -/
def dup_segments : List Segment :=
  [{ speaker := "A".data, text := "hi".data, start := 0, endTime := 0 },
   { speaker := "A".data, text := "there".data, start := 0, endTime := 0 }]

/-- Three segments with a repeated trailing speaker. -/
def demo_segments : List Segment :=
  [{ speaker := "A".data, text := "hello".data, start := 0, endTime := 1 },
   { speaker := "B".data, text := "world".data, start := 1, endTime := 2 },
   { speaker := "B".data, text := "again".data, start := 2, endTime := 3 }]

/-! ### Properties of `py_strip` -/

lemma dropWhile_head_not (p : Char → Bool) :
    ∀ (l : Str) (c : Char), (l.dropWhile p).head? = some c → p c = false := by
  intro l
  induction l with
  | nil => intro c h; simp at h
  | cons a t ih =>
    intro c h
    rw [List.dropWhile_cons] at h
    by_cases hp : p a = true
    · rw [if_pos hp] at h
      exact ih c h
    · rw [if_neg hp] at h
      simp only [List.head?_cons, Option.some.injEq] at h
      subst h
      simpa using hp

lemma dropWhile_getLast_eq (p : Char → Bool) :
    ∀ (l : Str), l.dropWhile p ≠ [] → (l.dropWhile p).getLast? = l.getLast? := by
  intro l
  induction l with
  | nil => simp
  | cons a t ih =>
    intro h
    rw [List.dropWhile_cons] at h ⊢
    by_cases hp : p a = true
    · rw [if_pos hp] at h ⊢
      rw [ih h]
      have ht : t ≠ [] := by
        intro he
        rw [he] at h
        simp at h
      cases t with
      | nil => exact absurd rfl ht
      | cons b u => rw [List.getLast?_cons_cons]
    · rw [if_neg hp]

lemma py_strip_head_not (s : Str) :
    ∀ c : Char, (py_strip s).head? = some c → is_py_space c = false := by
  intro c h
  unfold py_strip at h
  rw [List.head?_reverse] at h
  have hne : ((s.dropWhile is_py_space).reverse.dropWhile is_py_space) ≠ [] := by
    intro he
    rw [he] at h
    simp at h
  rw [dropWhile_getLast_eq _ _ hne, List.getLast?_reverse] at h
  exact dropWhile_head_not _ _ _ h

lemma py_strip_getLast_not (s : Str) :
    ∀ c : Char, (py_strip s).getLast? = some c → is_py_space c = false := by
  intro c h
  unfold py_strip at h
  rw [List.getLast?_reverse] at h
  exact dropWhile_head_not _ _ _ h

lemma py_strip_eq_self (l : Str)
    (h1 : ∀ c, l.head? = some c → is_py_space c = false)
    (h2 : ∀ c, l.getLast? = some c → is_py_space c = false) :
    py_strip l = l := by
  unfold py_strip
  have e1 : l.dropWhile is_py_space = l := by
    cases l with
    | nil => rfl
    | cons a t =>
      rw [List.dropWhile_cons, h1 a (by simp)]
      simp
  rw [e1]
  have e2 : l.reverse.dropWhile is_py_space = l.reverse := by
    cases hr : l.reverse with
    | nil => simp
    | cons a t =>
      have hla : l.getLast? = some a := by
        rw [← List.head?_reverse, hr, List.head?_cons]
      rw [List.dropWhile_cons, h2 a hla]
      simp
  rw [e2, List.reverse_reverse]

lemma py_strip_idem (s : Str) : py_strip (py_strip s) = py_strip s :=
  py_strip_eq_self _ (py_strip_head_not s) (py_strip_getLast_not s)

lemma py_strip_subset (s : Str) : ∀ c ∈ py_strip s, c ∈ s := by
  intro c hc
  unfold py_strip at hc
  rw [List.mem_reverse] at hc
  have h1 := (List.dropWhile_sublist (p := is_py_space)
    (l := (s.dropWhile is_py_space).reverse)).subset hc
  rw [List.mem_reverse] at h1
  exact (List.dropWhile_sublist (p := is_py_space) (l := s)).subset h1

/-! ### The repeated-character regex -/

lemma re_match_repeated_clean (l : Str)
    (h1 : ∀ c, l.head? = some c → is_py_space c = false)
    (h2 : ∀ c, l.getLast? = some c → is_py_space c = false) :
    (re_match_repeated l = true ↔ ∃ c n, 5 ≤ n ∧ l = List.replicate n c) := by
  cases l with
  | nil =>
    unfold re_match_repeated
    simp only [List.getLast?_nil]
    constructor
    · intro h
      simp at h
    · rintro ⟨c, n, hn, he⟩
      have : n = 0 := by simpa using congrArg List.length he.symm
      omega
  | cons a t =>
    obtain ⟨d, hd⟩ : ∃ d, (a :: t).getLast? = some d := by
      cases hgl : (a :: t).getLast? with
      | none => exact absurd (List.getLast?_eq_none_iff.mp hgl) (by simp)
      | some d => exact ⟨d, rfl⟩
    have hdne : d ≠ '\n' := by
      intro he
      have := h2 d hd
      rw [he] at this
      exact absurd this (by decide)
    have hane : a ≠ '\n' := by
      intro he
      have := h1 a (by simp)
      rw [he] at this
      exact absurd this (by decide)
    have hif : ((a :: t).getLast? == some '\n') = false := by
      rw [hd]
      exact beq_eq_false_iff_ne.mpr (fun hc => hdne (by injection hc))
    unfold re_match_repeated
    rw [hif]
    simp only [Bool.false_eq_true, if_false, Bool.and_eq_true, bne_iff_ne, ne_eq,
      decide_eq_true_eq, List.all_eq_true, beq_iff_eq]
    constructor
    · rintro ⟨⟨-, hlen⟩, hall⟩
      refine ⟨a, t.length + 1, by omega, ?_⟩
      rw [List.eq_replicate_iff]
      refine ⟨by simp, ?_⟩
      intro b hb
      rcases List.mem_cons.mp hb with hb | hb
      · exact hb
      · exact hall b hb
    · rintro ⟨c, n, hn, he⟩
      obtain ⟨hlen, hall⟩ := List.eq_replicate_iff.mp he
      have hac : a = c := hall a (by simp)
      have htlen : t.length + 1 = n := by simpa using hlen
      refine ⟨⟨hane, by omega⟩, ?_⟩
      intro b hb
      rw [hall b (List.mem_cons_of_mem a hb), hac]

/-- C5 auxiliary: `is_hallucination` unfolded to the four spec clauses. -/
lemma is_hallucination_iff (text : Str) :
    is_hallucination text = true ↔
      (py_strip text = [] ∨ (py_strip text).length < 2 ∨
       (∃ c n, 5 ≤ n ∧ py_strip text = List.replicate n c) ∨
       ∃ p ∈ hallucination_phrases,
         py_contains p (py_lower (py_strip text)) = true) := by
  unfold is_hallucination
  by_cases h0 : (py_strip text).isEmpty
  · simp only [h0, if_true, true_iff]
    exact Or.inl (List.isEmpty_iff.mp h0)
  · have h0' : py_strip text ≠ [] := fun he => h0 (by simp [he])
    rw [if_neg (by simpa using h0)]
    by_cases h1 : (py_strip text).length < 2
    · rw [if_pos (show decide ((py_strip text).length < 2) = true by simpa using h1)]
      exact iff_of_true rfl (Or.inr (Or.inl h1))
    · rw [if_neg (by simpa using h1)]
      have hclean := re_match_repeated_clean (py_strip text)
        (py_strip_head_not text) (py_strip_getLast_not text)
      by_cases h2 : re_match_repeated (py_strip text) = true
      · simp only [h2, if_true, true_iff]
        exact Or.inr (Or.inr (Or.inl (hclean.mp h2)))
      · rw [if_neg (by simpa using h2)]
        have hnorep : ¬∃ c n, 5 ≤ n ∧ py_strip text = List.replicate n c :=
          fun hex => h2 (hclean.mpr hex)
        constructor
        · intro h
          by_cases hany :
              (hallucination_phrases.any
                fun p => py_contains p (py_lower (py_strip text))) = true
          · obtain ⟨p, hp, hc⟩ := List.any_eq_true.mp hany
            exact Or.inr (Or.inr (Or.inr ⟨p, hp, hc⟩))
          · rw [if_neg hany] at h
            exact absurd h Bool.false_ne_true
        · rintro (he | hlt | hrep | ⟨p, hp, hc⟩)
          · exact absurd he h0'
          · exact absurd hlt h1
          · exact absurd hrep hnorep
          · rw [if_pos (List.any_eq_true.mpr ⟨p, hp, hc⟩)]

lemma is_hallucination_py_strip (t : Str) :
    is_hallucination (py_strip t) = is_hallucination t := by
  unfold is_hallucination
  rw [py_strip_idem]

/-! ### Helper lemmas for `session_stop` -/

lemma session_stop_noop (o : FinalizeOracle) (cfg : SessionConfig) (now : ℚ)
    (st : SessionState) (h1 : st.status ≠ .running) (h2 : st.status ≠ .starting) :
    session_stop o cfg now st = (st, .not_running, [], no_finalize_calls) := by
  unfold session_stop
  rw [if_pos ⟨h1, h2⟩]

lemma session_stop_completed (o : FinalizeOracle) (cfg : SessionConfig) (now : ℚ)
    (st : SessionState) (h : st.status = .running ∨ st.status = .starting) :
    (session_stop o cfg now st).1 = { st with status := .completed } := by
  unfold session_stop
  rw [if_neg (by rcases h with h | h <;> simp [h])]

lemma session_stop_running (o : FinalizeOracle) (cfg : SessionConfig) (now : ℚ)
    (st : SessionState) (hs : st.status = .running)
    (hfin : (cfg.enable_final_sync && !(full_transcript st).isEmpty) = true) :
    session_stop o cfg now st =
      ({ st with status := .completed },
       .finished (session_duration now st) (full_transcript st)
         st.detected_entities st.screenshots_processed st.audio_chunks_processed
         st.gemini_calls (some (finalize_lead o st).1),
       [(.running, .processing), (.processing, .completed)],
       (finalize_lead o st).2) := by
  unfold session_stop
  rw [if_neg (by simp [hs]), hs, if_pos hfin]
  rfl

lemma full_transcript_isEmpty_false (st : SessionState)
    (ht : full_transcript st ≠ []) : (full_transcript st).isEmpty = false := by
  cases hh : (full_transcript st).isEmpty
  · rfl
  · exact absurd (List.isEmpty_iff.mp hh) ht

lemma finalize_lead_summarize_error (o : FinalizeOracle) (st : SessionState)
    (e : Str) (ht : full_transcript st ≠ []) (ho : o.summarize = .error e) :
    finalize_lead o st = (.error e, ⟨true, false, false⟩) := by
  unfold finalize_lead
  rw [if_neg (by simp [full_transcript_isEmpty_false st ht]), ho]

lemma finalize_lead_crm_error (o : FinalizeOracle) (st : SessionState)
    (summary : Str) (entities : List Entity) (e : Str)
    (ht : full_transcript st ≠ []) (h1 : o.summarize = .ok summary)
    (h2 : o.extract = .ok entities) (h3 : o.create_lead = .error e) :
    finalize_lead o st =
      (.ok (.lead none (pick_lead_fields entities).name summary entities.length),
       ⟨true, true, true⟩) := by
  unfold finalize_lead
  rw [if_neg (by simp [full_transcript_isEmpty_false st ht]), h1, h2, h3]

/-! ### C5 — the hallucination predicate matches its specification -/

/-- **C5** (confirmed): `is_hallucination(text)` returns true exactly when
the stripped text is empty, is shorter than 2 characters, consists of a
single character repeated 5 or more times, or contains a phrase of the
fixed denylist of stock filler phrases (case-insensitively); for every
other text it returns false. -/
theorem is_hallucination_characterization (text : Str) :
    is_hallucination text = true ↔
      (py_strip text = [] ∨ (py_strip text).length < 2 ∨
       (∃ c n, 5 ≤ n ∧ py_strip text = List.replicate n c) ∨
       ∃ p ∈ hallucination_phrases,
         py_contains p (py_lower (py_strip text)) = true) :=
  is_hallucination_iff text

/-! ### C4 — silent chunks never reach the transcription collaborator -/

/-- **C4** (confirmed): for every chunk whose raw samples have RMS below
the silence threshold, the audio-chunk handler invokes neither the
diarized `transcribe_with_speakers` call nor the plain `transcribe`
fallback, and leaves the session state unchanged. -/
theorem silent_chunk_not_transcribed :
    ∀ (cfg : SessionConfig) (o : TranscribeOracle) (chunkData : List ℚ)
      (st : SessionState), is_silent_audio chunkData = true →
      handle_audio_chunk cfg o chunkData st = (st, ⟨0, 0⟩) := by
  intro cfg o chunkData st h
  unfold handle_audio_chunk transcribe_in_background
  rw [if_pos h]
  split <;> rfl

/-- Witness for C4 at the all-zero chunk. -/
theorem silent_chunk_not_transcribed_witness :
    is_silent_audio [0, 0, 0] = true ∧
    handle_audio_chunk {} ⟨[], []⟩ [0, 0, 0] initial_session_state =
      (initial_session_state, ⟨0, 0⟩) :=
  ⟨by simp [is_silent_audio],
   silent_chunk_not_transcribed {} ⟨[], []⟩ [0, 0, 0] initial_session_state
     (by simp [is_silent_audio])⟩

/-! ### C3 — hallucination filtering, local vs. remote ingestion path -/

lemma transcribe_in_background_cases (o : TranscribeOracle)
    (chunkData : List ℚ) (st : SessionState) :
    (transcribe_in_background o chunkData st).1.transcript_segments =
        st.transcript_segments ∨
    ∃ valid, (transcribe_in_background o chunkData st).1.transcript_segments =
        st.transcript_segments ++ valid ∧
      ∀ s ∈ valid,
        (!(py_strip s.text).isEmpty && !is_hallucination (py_strip s.text)) = true := by
  unfold transcribe_in_background
  by_cases h1 : is_silent_audio chunkData
  · rw [if_pos h1]
    exact Or.inl rfl
  · rw [if_neg h1]
    dsimp only
    by_cases h2 :
        (((if o.diarized.isEmpty then
            (if (py_strip o.plain).isEmpty then []
             else [{ speaker := "SPEAKER_00".data, text := py_strip o.plain,
                     start := 0, endTime := 0 }])
           else o.diarized).filter fun s =>
          !(py_strip s.text).isEmpty && !is_hallucination (py_strip s.text)).isEmpty)
    · rw [if_pos h2]
      exact Or.inl rfl
    · rw [if_neg h2]
      refine Or.inr ⟨_, rfl, ?_⟩
      intro s hs
      exact (List.mem_filter.mp hs).2

/-- **C3 counterexample**: on the remote audio-stream path a segment whose
text is a denylisted hallucination phrase is appended verbatim to
`transcript_segments`. -/
theorem remote_path_keeps_hallucinated_segment :
    is_hallucination bad_segment.text = true ∧
    bad_segment ∈
      (process_audio_in_background [bad_segment]
        initial_session_state).transcript_segments := by
  constructor
  · decide
  · simp [process_audio_in_background, initial_session_state, bad_segment]

/-- **C3 amended**: on the local capture path (`_handle_audio_chunk` /
`transcribe_in_background`), every segment newly appended to
`transcript_segments` has non-hallucinated text; the remote
`/audio-stream` path appends the transcriber output unfiltered. -/
theorem local_path_drops_hallucinated_segments :
    ∀ (cfg : SessionConfig) (o : TranscribeOracle) (chunkData : List ℚ)
      (st : SessionState) (seg : Segment),
      seg ∈ (handle_audio_chunk cfg o chunkData st).1.transcript_segments →
      seg ∈ st.transcript_segments ∨ is_hallucination seg.text = false := by
  intro cfg o chunkData st seg h
  unfold handle_audio_chunk at h
  by_cases he : cfg.enable_transcription
  · rw [if_neg (by simp [he])] at h
    rcases transcribe_in_background_cases o chunkData st with hc | ⟨valid, hev, hval⟩
    · rw [hc] at h
      exact Or.inl h
    · rw [hev] at h
      rcases List.mem_append.mp h with h' | h'
      · exact Or.inl h'
      · right
        have hb := hval seg h'
        rw [Bool.and_eq_true] at hb
        have hb2 := hb.2
        rw [Bool.not_eq_true'] at hb2
        rw [← is_hallucination_py_strip]
        exact hb2
  · rw [if_pos (by simp [he])] at h
    exact Or.inl h

/-- Witness for the amended C3: a clean diarized segment survives the
local path, so the theorem applies to it with its membership hypothesis
discharged by computation. -/
theorem local_path_drops_hallucinated_segments_witness :
    sample_segment ∈ initial_session_state.transcript_segments ∨
      is_hallucination sample_segment.text = false :=
  local_path_drops_hallucinated_segments {} ⟨[sample_segment], []⟩ []
    initial_session_state sample_segment (by decide)

/-! ### C2 — stop() when not running is a no-op -/

/-- **C2** (confirmed): `stop()` on a session that is neither RUNNING nor
STARTING returns the `"Session not running"` result, changes no state,
performs no status transition and invokes no finalization collaborator
(totality of `session_stop` models "never raises"); in particular a second
`stop()` right after a successful one behaves exactly this way, and
`stop_current_session` on a registered non-running session returns the
`{"status": "not_running"}` dict. -/
theorem stop_not_running_noop :
    (∀ (o : FinalizeOracle) (cfg : SessionConfig) (now : ℚ) (st : SessionState),
      st.status ≠ .running → st.status ≠ .starting →
      session_stop o cfg now st = (st, .not_running, [], no_finalize_calls)) ∧
    (∀ (o o' : FinalizeOracle) (cfg cfg' : SessionConfig) (now now' : ℚ)
      (st : SessionState), st.status = .running ∨ st.status = .starting →
      session_stop o' cfg' now' (session_stop o cfg now st).1 =
        ((session_stop o cfg now st).1, .not_running, [], no_finalize_calls)) ∧
    (∀ (o : FinalizeOracle) (now : ℚ) (s : Sess),
      s.state.status ≠ .running → s.state.status ≠ .starting →
      stop_current_session o now (some s) =
        (none, some .not_running_dict, [], no_finalize_calls)) := by
  refine ⟨?_, ?_, ?_⟩
  · intro o cfg now st h1 h2
    exact session_stop_noop o cfg now st h1 h2
  · intro o o' cfg cfg' now now' st h
    rw [session_stop_completed o cfg now st h]
    exact session_stop_noop _ _ _ _ (fun hc => SessionStatus.noConfusion hc)
      (fun hc => SessionStatus.noConfusion hc)
  · intro o now s h1 h2
    simp only [stop_current_session]
    rw [if_neg (not_or.mpr ⟨h1, h2⟩)]

/-- Witness for C2: a second `stop()` right after stopping a running
session is the not-running no-op. -/
theorem stop_not_running_noop_witness :
    session_stop ok_finalize_oracle {} 20
        (session_stop ok_finalize_oracle {} 20 running_state).1 =
      ((session_stop ok_finalize_oracle {} 20 running_state).1, .not_running,
       [], no_finalize_calls) :=
  stop_not_running_noop.2.1 ok_finalize_oracle ok_finalize_oracle {} {} 20 20
    running_state (Or.inl rfl)

/-! ### C10 — stop() without finalization -/

/-- **C10** (confirmed): when `enable_final_sync` is off or the accumulated
transcript is empty, `stop()` on a running session runs no summarization,
no entity extraction and no CRM lead creation, returns the result with
duration, transcript, entities and stats but no `lead` key, and the
session still reaches COMPLETED through PROCESSING. -/
theorem stop_skips_finalization_when_disabled_or_empty :
    ∀ (o : FinalizeOracle) (cfg : SessionConfig) (now : ℚ) (st : SessionState),
      st.status = .running →
      cfg.enable_final_sync = false ∨ full_transcript st = [] →
      session_stop o cfg now st =
        ({ st with status := .completed },
         .finished (session_duration now st) (full_transcript st)
           st.detected_entities st.screenshots_processed
           st.audio_chunks_processed st.gemini_calls none,
         [(.running, .processing), (.processing, .completed)],
         no_finalize_calls) := by
  intro o cfg now st hs hc
  have hfin : (cfg.enable_final_sync && !(full_transcript st).isEmpty) = false := by
    rcases hc with hc | hc
    · simp [hc]
    · simp [hc]
  unfold session_stop
  rw [if_neg (by simp [hs]), hs, hfin]
  rfl

/-- Witness for C10 with final sync disabled on a running session. -/
theorem stop_skips_finalization_witness :
    session_stop ok_finalize_oracle { enable_final_sync := false } 20
        running_state =
      ({ running_state with status := .completed },
       .finished (session_duration 20 running_state)
         (full_transcript running_state) running_state.detected_entities
         running_state.screenshots_processed
         running_state.audio_chunks_processed running_state.gemini_calls none,
       [(.running, .processing), (.processing, .completed)],
       no_finalize_calls) :=
  stop_skips_finalization_when_disabled_or_empty ok_finalize_oracle
    { enable_final_sync := false } 20 running_state rfl (Or.inl rfl)

/-! ### C7 — finalization failures are contained -/

/-- **C7 counterexample**: a persistence (database) failure in the stop
endpoint is not captured into the returned result — the response at a
concrete input equals, entry for entry, the response of a run whose
persistence succeeded, so no partial-failure entry exists for it. -/
theorem persistence_failure_not_captured :
    stop_session_endpoint (some (.result example_stop_result))
        (.error "database write failed".data) =
      .completed_response (.result example_stop_result) ∧
    stop_session_endpoint (some (.result example_stop_result))
        (.error "database write failed".data) =
      stop_session_endpoint (some (.result example_stop_result)) (.ok ()) :=
  ⟨rfl, rfl⟩

/-- **C7 amended**: a summarization (or extraction) failure during
finalization is captured as the `{"error": ...}` lead entry of the stop
result; a CRM failure is swallowed and surfaces only as a null `lead_id`;
a persistence failure in the stop endpoint is logged and leaves the
response unchanged.  In every case nothing is raised, the session reaches
COMPLETED, and duration, transcript, entities and stats are intact. -/
theorem finalization_failure_contained :
    (∀ (o : FinalizeOracle) (cfg : SessionConfig) (now : ℚ) (st : SessionState)
      (e : Str), st.status = .running → cfg.enable_final_sync = true →
      full_transcript st ≠ [] → o.summarize = .error e →
      session_stop o cfg now st =
        ({ st with status := .completed },
         .finished (session_duration now st) (full_transcript st)
           st.detected_entities st.screenshots_processed
           st.audio_chunks_processed st.gemini_calls (some (.error e)),
         [(.running, .processing), (.processing, .completed)],
         ⟨true, false, false⟩)) ∧
    (∀ (o : FinalizeOracle) (cfg : SessionConfig) (now : ℚ) (st : SessionState)
      (summary : Str) (entities : List Entity) (e : Str),
      st.status = .running → cfg.enable_final_sync = true →
      full_transcript st ≠ [] → o.summarize = .ok summary →
      o.extract = .ok entities → o.create_lead = .error e →
      session_stop o cfg now st =
        ({ st with status := .completed },
         .finished (session_duration now st) (full_transcript st)
           st.detected_entities st.screenshots_processed
           st.audio_chunks_processed st.gemini_calls
           (some (.ok (.lead none (pick_lead_fields entities).name summary
             entities.length))),
         [(.running, .processing), (.processing, .completed)],
         ⟨true, true, true⟩)) ∧
    (∀ (res : StopApiResult) (p p' : Except Str Unit),
      stop_session_endpoint (some res) p = .completed_response res ∧
      stop_session_endpoint (some res) p = stop_session_endpoint (some res) p') := by
  refine ⟨?_, ?_, fun res p p' => ⟨rfl, rfl⟩⟩
  · intro o cfg now st e hs hsync ht hsum
    rw [session_stop_running o cfg now st hs
        (by simp [hsync, full_transcript_isEmpty_false st ht]),
      finalize_lead_summarize_error o st e ht hsum]
  · intro o cfg now st summary entities e hs hsync ht h1 h2 h3
    rw [session_stop_running o cfg now st hs
        (by simp [hsync, full_transcript_isEmpty_false st ht]),
      finalize_lead_crm_error o st summary entities e ht h1 h2 h3]

/-- Witness for the amended C7: a summarizer crash on a concrete running
session ends COMPLETED with the error captured in the lead entry. -/
theorem finalization_failure_contained_witness :
    session_stop failing_summarize_oracle {} 20 running_state =
      ({ running_state with status := .completed },
       .finished (session_duration 20 running_state)
         (full_transcript running_state) running_state.detected_entities
         running_state.screenshots_processed
         running_state.audio_chunks_processed running_state.gemini_calls
         (some (.error "summarizer crashed".data)),
       [(.running, .processing), (.processing, .completed)],
       ⟨true, false, false⟩) :=
  finalization_failure_contained.1 failing_summarize_oracle {} 20 running_state
    "summarizer crashed".data rfl rfl (by decide) rfl

/-! ### C8 — broadcast fan-out isolation -/

lemma mem_foldl_erase :
    ∀ (ds l : List Nat), l.Nodup → ∀ x : Nat,
      (x ∈ ds.foldl (fun s w => s.erase w) l ↔ x ∈ l ∧ x ∉ ds) := by
  intro ds
  induction ds with
  | nil =>
    intro l _ x
    simp
  | cons d ds ih =>
    intro l hl x
    rw [List.foldl_cons, ih (l.erase d) (hl.erase d) x, hl.mem_erase_iff]
    constructor
    · rintro ⟨⟨hxd, hxl⟩, hds⟩
      exact ⟨hxl, by simp [hxd, hds]⟩
    · rintro ⟨hxl, hnds⟩
      simp only [List.mem_cons, not_or] at hnds
      exact ⟨⟨hnds.1, hxl⟩, hnds.2⟩

/-- **C8** (confirmed): `_broadcast` with zero subscribers sends nothing
and returns at once; with any subscriber set, exactly the subscribers
whose send failed are removed, and every subscriber whose send succeeded
both receives the event and stays registered (totality of
`broadcast_publish` models "no exception propagates"). -/
theorem broadcast_publish_isolation :
    (∀ send_ok, broadcast_publish [] send_ok = ([], [])) ∧
    (∀ (subs : List Nat) (send_ok : Nat → Bool) (w : Nat), subs.Nodup →
      ((w ∈ (broadcast_publish subs send_ok).1 ↔ w ∈ subs ∧ send_ok w = true) ∧
       (w ∈ (broadcast_publish subs send_ok).2 ↔ w ∈ subs ∧ send_ok w = true))) := by
  constructor
  · intro send_ok
    rfl
  · intro subs send_ok w hn
    unfold broadcast_publish
    by_cases hs : subs.isEmpty
    · have he : subs = [] := List.isEmpty_iff.mp hs
      subst he
      simp
    · rw [if_neg (by simpa using hs)]
      constructor
      · rw [mem_foldl_erase _ _ hn w]
        constructor
        · rintro ⟨hw, hnf⟩
          refine ⟨hw, ?_⟩
          by_cases hsend : send_ok w = true
          · exact hsend
          · exact absurd (List.mem_filter.mpr ⟨hw, by simp [hsend]⟩) hnf
        · rintro ⟨hw, hsend⟩
          refine ⟨hw, fun hf => ?_⟩
          have hc := (List.mem_filter.mp hf).2
          simp [hsend] at hc
      · simp [List.mem_filter]

/-- Witness for C8: with subscribers `[1, 2]` and subscriber `2`'s send
failing, subscriber `1` still receives the event and stays; plus the
zero-subscriber no-op. -/
theorem broadcast_publish_isolation_witness :
    broadcast_publish [] (fun _ => false) = ([], []) ∧
    (1 ∈ (broadcast_publish [1, 2] (fun w => decide (w = 1))).2 ↔
      1 ∈ [1, 2] ∧ decide ((1 : Nat) = 1) = true) :=
  ⟨broadcast_publish_isolation.1 (fun _ => false),
   (broadcast_publish_isolation.2 [1, 2] (fun w => decide (w = 1)) 1
     (by decide)).2⟩

/-! ### C6 — battlecard targets per tick and deduplication -/

/-- **C6 counterexample**: the `/battlecard` endpoint appends to the
session's battlecards without any deduplication check, so appending a card
for a competitor that already has one leaves the list no longer
deduplicated by competitor key. -/
theorem battlecard_endpoint_duplicates :
    ¬ ((get_battlecard_save aws_card
        { initial_session_state with battlecards := [aws_card] }).battlecards.map
          (·.competitor)).Nodup := by
  decide

lemma insight_tick_target_count (o : TickOracle) (acc : SessionState × Nat)
    (target : Str) : (insight_tick_target o acc target).2 ≤ acc.2 + 1 := by
  rcases acc with ⟨s, n⟩
  unfold insight_tick_target
  dsimp only
  split
  · omega
  · split
    · simp
    · simp

lemma insight_fold_count (o : TickOracle) :
    ∀ (targets : List Str) (acc : SessionState × Nat),
      (targets.foldl (insight_tick_target o) acc).2 ≤ acc.2 + targets.length := by
  intro targets
  induction targets with
  | nil =>
    intro acc
    simp
  | cons t ts ih =>
    intro acc
    rw [List.foldl_cons]
    have h1 := ih (insight_tick_target o acc t)
    have h2 := insight_tick_target_count o acc t
    simp only [List.length_cons]
    omega

lemma insight_tick_target_keys (o : TickOracle) (acc : SessionState × Nat)
    (target : Str) (hok : ∀ t c, o.battlecard t = .ok c → c.competitor = t)
    (hnd : (acc.1.battlecards.map (·.competitor)).Nodup) :
    ((insight_tick_target o acc target).1.battlecards.map (·.competitor)).Nodup := by
  rcases acc with ⟨s, n⟩
  unfold insight_tick_target
  dsimp only at hnd ⊢
  split
  · exact hnd
  · next hmem =>
    split
    · exact hnd
    · next card hcard =>
      have hcomp : card.competitor = target := hok target card hcard
      split <;>
      · simp only [List.map_append, List.map_cons, List.map_nil]
        rw [List.nodup_append]
        refine ⟨hnd, List.nodup_singleton _, ?_⟩
        intro a ha hb
        simp only [List.mem_singleton] at hb
        rw [hb, show ∀ f v, ({ card with web_findings := f, web_verdict := v } :
          Battlecard).competitor = card.competitor from fun _ _ => rfl, hcomp] at ha
        exact hmem ha

lemma insight_fold_keys (o : TickOracle)
    (hok : ∀ t c, o.battlecard t = .ok c → c.competitor = t) :
    ∀ (targets : List Str) (acc : SessionState × Nat),
      (acc.1.battlecards.map (·.competitor)).Nodup →
      ((targets.foldl (insight_tick_target o) acc).1.battlecards.map
        (·.competitor)).Nodup := by
  intro targets
  induction targets with
  | nil =>
    intro acc h
    simpa using h
  | cons t ts ih =>
    intro acc h
    rw [List.foldl_cons]
    exact ih _ (insight_tick_target_keys o acc t hok h)

/-- **C6 amended**: each insight-scheduler tick requests battlecards for at
most 2 targets and skips targets already covered, so — provided the
battlecard collaborator keys its card by the requested target, as its
contract states — the battlecards appended by the insight loop keep the
list deduplicated by competitor key; the `/battlecard` endpoint, however,
appends unconditionally and can introduce duplicates. -/
theorem insight_tick_caps_and_dedups :
    (∀ (o : TickOracle) (st : SessionState), (insight_tick o st).2 ≤ 2) ∧
    (∀ (o : TickOracle) (st : SessionState),
      (∀ t c, o.battlecard t = .ok c → c.competitor = t) →
      (st.battlecards.map (·.competitor)).Nodup →
      ((insight_tick o st).1.battlecards.map (·.competitor)).Nodup) := by
  constructor
  · intro o st
    unfold insight_tick
    dsimp only
    by_cases hc :
        ((full_transcript st).isEmpty ||
          decide ((full_transcript st).length < 20)) = true
    · rw [if_pos hc]
      simp
    · rw [if_neg hc]
      cases hext : o.extract with
      | error e => simp
      | ok entities =>
        cases hhints : o.hints with
        | error e => simp
        | ok pair =>
          rcases pair with ⟨qh, topics⟩
          dsimp only
          refine le_trans (insight_fold_count o _ _) ?_
          simp [List.length_take_le]
  · intro o st hok hnd
    unfold insight_tick
    dsimp only
    by_cases hc :
        ((full_transcript st).isEmpty ||
          decide ((full_transcript st).length < 20)) = true
    · rw [if_pos hc]
      exact hnd
    · rw [if_neg hc]
      cases hext : o.extract with
      | error e => exact hnd
      | ok entities =>
        cases hhints : o.hints with
        | error e => exact hnd
        | ok pair =>
          rcases pair with ⟨qh, topics⟩
          exact insight_fold_keys o hok _ _ (by simpa using hnd)

/-- Witness for the amended C6 on a concrete running session. -/
theorem insight_tick_caps_and_dedups_witness :
    (insight_tick demo_tick_oracle running_state).2 ≤ 2 ∧
    ((insight_tick demo_tick_oracle running_state).1.battlecards.map
      (·.competitor)).Nodup :=
  ⟨insight_tick_caps_and_dedups.1 demo_tick_oracle running_state,
   insight_tick_caps_and_dedups.2 demo_tick_oracle running_state
     (fun t c h => by cases h; rfl) (by decide)⟩

/-! ### C1 — the session status state machine -/

lemma session_stop_trace_allowed (o : FinalizeOracle) (cfg : SessionConfig)
    (now : ℚ) (st : SessionState) :
    ∀ p ∈ (session_stop o cfg now st).2.2.1,
      allowed_transition p.1 p.2 = true := by
  intro p hp
  unfold session_stop at hp
  by_cases h : st.status ≠ .running ∧ st.status ≠ .starting
  · rw [if_pos h] at hp
    simp at hp
  · rw [if_neg h] at hp
    dsimp only at hp
    simp only [List.mem_cons, List.not_mem_nil, or_false] at hp
    have hs : st.status = .running ∨ st.status = .starting := by
      rcases not_and_or.mp h with h1 | h1
      · exact Or.inl (not_not.mp h1)
      · exact Or.inr (not_not.mp h1)
    rcases hp with hp | hp
    · subst hp
      rcases hs with h' | h' <;> rw [h'] <;> decide
    · subst hp
      decide

lemma session_start_trace_allowed (fails : Bool) (now : ℚ) :
    ∀ p ∈ (session_start fails now initial_session_state).2.1,
      allowed_transition p.1 p.2 = true := by
  intro p hp
  unfold session_start at hp
  rw [if_neg (by decide)] at hp
  cases fails <;>
    simp only [Bool.false_eq_true, Bool.true_eq_false, if_true, if_false,
      reduceIte, List.mem_cons, List.not_mem_nil, or_false] at hp <;>
    rcases hp with hp | hp <;> subst hp <;> decide

lemma stop_current_session_trace_allowed (o : FinalizeOracle) (now : ℚ)
    (r : Registry) :
    ∀ p ∈ (stop_current_session o now r).2.2.1,
      allowed_transition p.1 p.2 = true := by
  rcases r with _ | s
  · intro p hp
    simp [stop_current_session] at hp
  · intro p hp
    simp only [stop_current_session] at hp
    by_cases h : s.state.status = .running ∨ s.state.status = .starting
    · rw [if_pos h] at hp
      exact session_stop_trace_allowed o s.config now s.state p hp
    · rw [if_neg h] at hp
      simp at hp

lemma start_new_session_trace_allowed (o : StartOracle) (r : Registry) :
    ∀ p ∈ (start_new_session o r).2.1, allowed_transition p.1 p.2 = true := by
  intro p hp
  unfold start_new_session at hp
  dsimp only at hp
  rcases List.mem_append.mp hp with h | h
  · rcases r with _ | s
    · simp at h
    · dsimp only at h
      by_cases hr : s.state.status = .running
      · rw [if_pos hr] at h
        exact session_stop_trace_allowed o.prev_finalize s.config o.now
          s.state p h
      · rw [if_neg hr] at h
        simp at h
  · exact session_start_trace_allowed o.startup_fails o.now p h

lemma apply_op_trace_allowed (op : ApiOp) (r : Registry) :
    ∀ p ∈ (apply_op op r).2, allowed_transition p.1 p.2 = true := by
  cases op with
  | start_op o => exact start_new_session_trace_allowed o r
  | stop_op o now => exact stop_current_session_trace_allowed o now r
  | reset_op =>
    intro p hp
    simp [apply_op, force_reset_session] at hp

/-- **C1** (confirmed): every status transition performed by any sequence
of module-level API operations lies on the allowed graph; `stop()` on a
running session with finalization enabled sets exactly PROCESSING and then
COMPLETED; and after `force_reset_session` the observed session status is
IDLE from every prior registry state. -/
theorem status_transitions_follow_graph :
    (∀ (ops : List ApiOp) (r : Registry) (p : SessionStatus × SessionStatus),
      p ∈ (run_ops ops r).2 → allowed_transition p.1 p.2 = true) ∧
    (∀ (o : FinalizeOracle) (cfg : SessionConfig) (now : ℚ) (st : SessionState),
      st.status = .running → cfg.enable_final_sync = true →
      (session_stop o cfg now st).2.2.1 =
        [(.running, .processing), (.processing, .completed)]) ∧
    (∀ r : Registry, observed_status (force_reset_session r).1 = .idle) := by
  refine ⟨?_, ?_, fun r => rfl⟩
  · intro ops
    induction ops with
    | nil =>
      intro r p hp
      simp [run_ops] at hp
    | cons op ops ih =>
      intro r p hp
      unfold run_ops at hp
      rcases List.mem_append.mp hp with h | h
      · exact apply_op_trace_allowed op r p h
      · exact ih _ p h
  · intro o cfg now st hs _
    unfold session_stop
    rw [if_neg (by simp [hs]), hs]

/-- Witness for C1: a concrete start emits the `IDLE → STARTING` edge, a
concrete stop of a running session traces PROCESSING then COMPLETED, and
force-reset of a running registry observes IDLE. -/
theorem status_transitions_follow_graph_witness :
    allowed_transition .idle .starting = true ∧
    (session_stop ok_finalize_oracle {} 20 running_state).2.2.1 =
      [(.running, .processing), (.processing, .completed)] ∧
    observed_status (force_reset_session (some ⟨{}, running_state⟩)).1 = .idle :=
  ⟨status_transitions_follow_graph.1 [.start_op demo_start_oracle] none
      (.idle, .starting) (by decide),
   status_transitions_follow_graph.2.1 ok_finalize_oracle {} 20 running_state
     rfl rfl,
   status_transitions_follow_graph.2.2 (some ⟨{}, running_state⟩)⟩

/-! ### C9 — the speaker-grouping round trip -/

lemma takeWhile_ne_append (sp r : Str) (h : ']' ∉ sp) :
    (sp ++ ']' :: r).takeWhile (· != ']') = sp := by
  induction sp with
  | nil => simp [List.takeWhile_cons]
  | cons a t ih =>
    simp only [List.mem_cons, not_or] at h
    rw [List.cons_append, List.takeWhile_cons, if_pos (by simp [Ne.symm h.1])]
    rw [ih h.2]

lemma parse_line_mk_line (sp : Str) (buf : List Str) (h : ']' ∉ sp) :
    parse_line (mk_line (some sp) buf) = some sp := by
  unfold parse_line mk_line
  dsimp only
  rw [if_pos rfl, takeWhile_ne_append sp _ h]
  rw [show (sp ++ ']' :: ':' :: ' ' :: List.intercalate [' '] buf).drop sp.length =
    ']' :: ':' :: ' ' :: List.intercalate [' '] buf from List.drop_left sp _]
  dsimp only
  rw [if_pos (by decide)]

lemma intercalate_cons_cons' (s a b : Str) (t : List Str) :
    List.intercalate s (a :: b :: t) = a ++ s ++ List.intercalate s (b :: t) := by
  simp [List.intercalate, List.intersperse_cons_cons]

lemma intercalate_singleton' (s a : Str) : List.intercalate s [a] = a := by
  simp [List.intercalate]

lemma not_mem_intercalate_space (c : Char) (hc : c ≠ ' ') :
    ∀ (bufs : List Str), (∀ b ∈ bufs, c ∉ b) →
      c ∉ List.intercalate [' '] bufs := by
  intro bufs
  induction bufs with
  | nil =>
    intro _
    simp [List.intercalate]
  | cons b bufs ih =>
    intro hb
    cases bufs with
    | nil =>
      rw [intercalate_singleton']
      exact hb b (by simp)
    | cons b2 t =>
      rw [intercalate_cons_cons']
      intro hmem
      rcases List.mem_append.mp hmem with hm | hm
      · rcases List.mem_append.mp hm with hm | hm
        · exact hb b (by simp) hm
        · simp at hm
          exact hc hm
      · exact ih (fun x hx => hb x (by simp [hx])) hm

lemma newline_not_mem_mk_line (sp : Str) (buf : List Str) (hsp : '\n' ∉ sp)
    (hbuf : ∀ b ∈ buf, '\n' ∉ b) : '\n' ∉ mk_line (some sp) buf := by
  unfold mk_line
  dsimp only
  intro hmem
  simp only [List.mem_cons, List.mem_append] at hmem
  rcases hmem with h | h | h
  · exact absurd h (by decide)
  · exact hsp h
  · rcases h with h | h | h | h
    · exact absurd h (by decide)
    · exact absurd h (by decide)
    · exact absurd h (by decide)
    · exact not_mem_intercalate_space '\n' (by decide) buf hbuf h

lemma fmt_loop_steady :
    ∀ (segs : List Segment) (sp : Str) (buf lines : List Str),
      (∀ s ∈ segs, good_seg s) →
      ']' ∉ sp → '\n' ∉ sp → buf ≠ [] → (∀ b ∈ buf, '\n' ∉ b) →
      (∀ l ∈ lines, '\n' ∉ l) →
      ((fmt_loop segs (some sp) buf lines).filterMap parse_line =
        lines.filterMap parse_line ++
          sp :: dedup_adj_from sp (segs.map (·.speaker))) ∧
      (∀ l ∈ fmt_loop segs (some sp) buf lines, '\n' ∉ l) ∧
      fmt_loop segs (some sp) buf lines ≠ [] := by
  intro segs
  induction segs with
  | nil =>
    intro sp buf lines _ hsp1 hsp2 hbuf hbufn hlines
    have hbe : buf.isEmpty = false := by
      cases buf with
      | nil => exact absurd rfl hbuf
      | cons _ _ => rfl
    unfold fmt_loop
    rw [if_neg (by simp [hbe])]
    refine ⟨?_, ?_, by simp⟩
    · rw [List.filterMap_append]
      simp [parse_line_mk_line sp buf hsp1, dedup_adj_from]
    · intro l hl
      rcases List.mem_append.mp hl with h | h
      · exact hlines l h
      · simp only [List.mem_singleton] at h
        subst h
        exact newline_not_mem_mk_line sp buf hsp2 hbufn
  | cons seg rest ih =>
    intro sp buf lines hsegs hsp1 hsp2 hbuf hbufn hlines
    obtain ⟨htx, hsegsp1, hsegsp2, htxn⟩ := hsegs seg (by simp)
    have hrest : ∀ s ∈ rest, good_seg s := fun s hs => hsegs s (by simp [hs])
    have htxe : (py_strip seg.text).isEmpty = false := by
      cases hc : py_strip seg.text with
      | nil => exact absurd hc htx
      | cons _ _ => rfl
    have htxnl : '\n' ∉ py_strip seg.text :=
      fun hm => htxn (py_strip_subset _ _ hm)
    unfold fmt_loop
    dsimp only
    by_cases hspeq : seg.speaker = sp
    · rw [if_neg (by simp [hspeq])]
      simp only [htxe, Bool.false_eq_true, if_false]
      obtain ⟨ih1, ih2, ih3⟩ := ih sp (buf ++ [py_strip seg.text]) lines hrest
        hsp1 hsp2 (by simp)
        (by
          intro b hb
          rcases List.mem_append.mp hb with h | h
          · exact hbufn b h
          · simp only [List.mem_singleton] at h
            subst h
            exact htxnl)
        hlines
      refine ⟨?_, ih2, ih3⟩
      rw [ih1]
      simp [dedup_adj_from, hspeq]
    · rw [if_pos (by simp [hspeq])]
      have hbe : buf.isEmpty = false := by
        cases buf with
        | nil => exact absurd rfl hbuf
        | cons _ _ => rfl
      simp only [htxe, hbe, Bool.false_eq_true, if_false]
      obtain ⟨ih1, ih2, ih3⟩ := ih seg.speaker [py_strip seg.text]
        (lines ++ [mk_line (some sp) buf]) hrest hsegsp1 hsegsp2 (by simp)
        (by
          intro b hb
          simp only [List.mem_singleton] at hb
          subst hb
          exact htxnl)
        (by
          intro l hl
          rcases List.mem_append.mp hl with h | h
          · exact hlines l h
          · simp only [List.mem_singleton] at h
            subst h
            exact newline_not_mem_mk_line sp buf hsp2 hbufn)
      refine ⟨?_, ih2, ih3⟩
      rw [ih1, List.filterMap_append]
      simp [parse_line_mk_line sp buf hsp1, dedup_adj_from, hspeq]

/-- **C9 counterexample**: two consecutive segments by the same speaker
format into a single line, so re-parsing yields the speaker once — not the
original two-element speaker sequence. -/
theorem roundtrip_loses_repeated_speakers :
    parse_speakers (format_transcript_with_speakers dup_segments) ≠
      dup_segments.map (·.speaker) := by
  decide

/-- **C9 amended**: for every non-empty segment list whose texts are
non-blank and newline-free and whose speaker labels contain no `]` or
newline, re-parsing the formatted transcript recovers the speaker sequence
with adjacent duplicates collapsed (the sequence of speaker runs), not the
raw per-segment sequence. -/
theorem format_roundtrip_recovers_speaker_runs :
    ∀ segs : List Segment, segs ≠ [] → (∀ s ∈ segs, good_seg s) →
      parse_speakers (format_transcript_with_speakers segs) =
        dedup_adj (segs.map (·.speaker)) := by
  intro segs hne hgood
  cases segs with
  | nil => exact absurd rfl hne
  | cons seg rest =>
    obtain ⟨htx, hsp1, hsp2, htxn⟩ := hgood seg (by simp)
    have hrest : ∀ s ∈ rest, good_seg s := fun s hs => hgood s (by simp [hs])
    have htxe : (py_strip seg.text).isEmpty = false := by
      cases hc : py_strip seg.text with
      | nil => exact absurd hc htx
      | cons _ _ => rfl
    have htxnl : '\n' ∉ py_strip seg.text :=
      fun hm => htxn (py_strip_subset _ _ hm)
    unfold format_transcript_with_speakers
    rw [if_neg (by simp)]
    have hstep : fmt_loop (seg :: rest) none [] [] =
        fmt_loop rest (some seg.speaker) [py_strip seg.text] [] := by
      conv_lhs => rw [fmt_loop]
      rw [if_pos (by simp)]
      simp [htxe]
    rw [hstep]
    obtain ⟨h1, h2, h3⟩ := fmt_loop_steady rest seg.speaker [py_strip seg.text]
      [] hrest hsp1 hsp2 (by simp)
      (by
        intro b hb
        simp only [List.mem_singleton] at hb
        subst hb
        exact htxnl)
      (by simp)
    unfold parse_speakers split_on_char
    rw [List.splitOn_intercalate _ '\n' h2 h3, h1]
    simp [dedup_adj]

/-- Witness for the amended C9 on three concrete segments. -/
theorem format_roundtrip_recovers_speaker_runs_witness :
    parse_speakers (format_transcript_with_speakers demo_segments) =
      dedup_adj (demo_segments.map (·.speaker)) :=
  format_roundtrip_recovers_speaker_runs demo_segments (by decide) (by decide)
